import Mathlib

/-!
Shallow embedding of the skythen/apdu Go package (file apdu.go):
ISO 7816-4 command/response APDU parsing and serialization.

Modelling conventions:
- Go byte slices are `List Nat`, each entry the value of one byte (0..255).
- Go `int` values appearing here are nonnegative and far below 2^63, so they
  are modelled as `Nat`.  Go subtractions that could go negative in a guard
  (`lc != bodyLen-1 && lc != bodyLen-2`) are rendered additively
  (`lc + 1 != bodyLen`), which is equivalent over the integers.
- A Go slice expression `c[i:j]` requires `j <= len(c)` (capacity equals
  length for the fresh slices handled here) and otherwise panics at run time;
  an index expression `c[i]` requires `i < len(c)`.  A reachable access whose
  bound can fail is modelled by an explicit bounds check returning
  `PResult.outOfRange`; accesses whose bounds are implied by the guards
  already passed use `List.getD` / `List.drop` / `List.take` directly.
- `binary.BigEndian.Uint16 b` is `b[0]*256 + b[1]`.
- Errors built with `errors.Errorf` are modelled by `ApduError`, keeping the
  numeric value each message reports.
-/

namespace Apdu

def OffsetCla : Nat := 0

def OffsetIns : Nat := 1

def OffsetP1 : Nat := 2

def OffsetP2 : Nat := 3

def OffsetLcStandard : Nat := 4

def OffsetLcExtended : Nat := 5

def OffsetCdataStandard : Nat := 5

def OffsetCdataExtended : Nat := 7

def MaxLenCommandDataStandard : Nat := 255

def MaxLenResponseDataStandard : Nat := 256

def MaxLenCommandDataExtended : Nat := 65535

def MaxLenResponseDataExtended : Nat := 65536

def LenHeader : Nat := 4

def LenLCStandard : Nat := 1

def LenLCExtended : Nat := 3

def LenResponseTrailer : Nat := 2

/-- Capdu is a Command APDU (struct Capdu of apdu.go). -/
structure Capdu where
  Cla : Nat
  Ins : Nat
  P1 : Nat
  P2 : Nat
  Data : List Nat
  Ne : Nat
deriving DecidableEq

/-- Rapdu is a Response APDU (struct Rapdu of apdu.go). -/
structure Rapdu where
  Data : List Nat
  SW1 : Nat
  SW2 : Nat
deriving DecidableEq

/-- Error kinds returned by the parsers, with the numeric value the Go error
message reports. -/
inductive ApduError where
  | invalidLength (got : Nat)
  | invalidLc (indicated : Nat)
deriving DecidableEq

/-- Outcome of a Go function returning `(T, error)`: a value, an error value,
or a run-time panic caused by an out-of-range slice expression. -/
inductive PResult (α : Type) where
  | ok (value : α)
  | err (e : ApduError)
  | outOfRange
deriving DecidableEq

/-- parseCapduStandardLength of apdu.go. -/
def parseCapduStandardLength (c : List Nat) : PResult Capdu :=
  if c.length = LenHeader + LenLCStandard then
    -- STANDARD CASE 2 command: HEADER | LE (no LC present)
    let ne := c.getD OffsetLcStandard 0
    if ne = 0 then
      .ok ⟨c.getD OffsetCla 0, c.getD OffsetIns 0, c.getD OffsetP1 0,
        c.getD OffsetP2 0, [], MaxLenResponseDataStandard⟩
    else
      .ok ⟨c.getD OffsetCla 0, c.getD OffsetIns 0, c.getD OffsetP1 0,
        c.getD OffsetP2 0, [], ne⟩
  else if c.length < OffsetLcStandard + 1 then
    -- Go evaluates c[OffsetLcStandard]; out of range on shorter input
    .outOfRange
  else
    let bodyLen := c.length - LenHeader
    let lc := c.getD OffsetLcStandard 0
    -- Go: lc != bodyLen-LenLCStandard && lc != bodyLen-LenLCStandard-1
    if lc + LenLCStandard ≠ bodyLen ∧ lc + LenLCStandard + 1 ≠ bodyLen then
      .err (.invalidLc lc)
    else
      -- data := c[OffsetCdataStandard : OffsetCdataStandard+lc]
      -- in bounds: lc + 1 <= bodyLen, so 5 + lc <= c.length
      let data := (c.drop OffsetCdataStandard).take lc
      if c.length = LenHeader + LenLCStandard + data.length then
        -- STANDARD CASE 3 command: HEADER | LC | DATA
        .ok ⟨c.getD OffsetCla 0, c.getD OffsetIns 0, c.getD OffsetP1 0,
          c.getD OffsetP2 0, data, 0⟩
      else
        -- STANDARD CASE 4 command: HEADER | LC | DATA | LE
        let le := c.getD (c.length - 1) 0
        let ne := if le = 0 then MaxLenResponseDataStandard else le
        .ok ⟨c.getD OffsetCla 0, c.getD OffsetIns 0, c.getD OffsetP1 0,
          c.getD OffsetP2 0, data, ne⟩

/-- parseCapduExtendedLength of apdu.go. -/
def parseCapduExtendedLength (c : List Nat) : PResult Capdu :=
  if c.length = LenHeader + LenLCExtended then
    -- EXTENDED CASE 2 command: HEADER | LE (two byte big-endian, after zero)
    let le := c.getD OffsetLcExtended 0 * 256 + c.getD (OffsetLcExtended + 1) 0
    let ne := if le = 0 then MaxLenResponseDataExtended else le
    .ok ⟨c.getD OffsetCla 0, c.getD OffsetIns 0, c.getD OffsetP1 0,
      c.getD OffsetP2 0, [], ne⟩
  else if c.length < OffsetLcExtended + 2 then
    -- Go evaluates c[OffsetLcExtended : OffsetLcExtended+2]; the slice is out
    -- of range whenever the input holds fewer than 7 bytes
    .outOfRange
  else
    let bodyLen := c.length - LenHeader
    let lc := c.getD OffsetLcExtended 0 * 256 + c.getD (OffsetLcExtended + 1) 0
    -- Go: lc != bodyLen-LenLCExtended && lc != bodyLen-LenLCExtended-2
    if lc + LenLCExtended ≠ bodyLen ∧ lc + LenLCExtended + 2 ≠ bodyLen then
      .err (.invalidLc lc)
    else
      -- data := c[OffsetCdataExtended : OffsetCdataExtended+lc]
      -- in bounds: lc + 3 <= bodyLen, so 7 + lc <= c.length
      let data := (c.drop OffsetCdataExtended).take lc
      if c.length = LenHeader + LenLCExtended + data.length then
        -- EXTENDED CASE 3 command: HEADER | LC | DATA
        .ok ⟨c.getD OffsetCla 0, c.getD OffsetIns 0, c.getD OffsetP1 0,
          c.getD OffsetP2 0, data, 0⟩
      else
        -- EXTENDED CASE 4 command: HEADER | LC | DATA | LE
        let le := c.getD (c.length - 2) 0 * 256 + c.getD (c.length - 1) 0
        let ne := if le = 0 then MaxLenResponseDataExtended else le
        .ok ⟨c.getD OffsetCla 0, c.getD OffsetIns 0, c.getD OffsetP1 0,
          c.getD OffsetP2 0, data, ne⟩

/-- ParseCapdu of apdu.go. -/
def ParseCapdu (c : List Nat) : PResult Capdu :=
  if c.length < LenHeader ∨ c.length > 65544 then
    .err (.invalidLength c.length)
  else if c.length = LenHeader then
    -- CASE 1 command: only HEADER
    .ok ⟨c.getD OffsetCla 0, c.getD OffsetIns 0, c.getD OffsetP1 0,
      c.getD OffsetP2 0, [], 0⟩
  else if c.getD OffsetLcStandard 0 = 0 ∧ (c.drop OffsetLcExtended).length > 0 then
    parseCapduExtendedLength c
  else
    parseCapduStandardLength c

/-- ParseRapdu of apdu.go. -/
def ParseRapdu (b : List Nat) : PResult Rapdu :=
  if b.length < LenResponseTrailer ∨ b.length > 65538 then
    .err (.invalidLength b.length)
  else if b.length = LenResponseTrailer then
    .ok ⟨[], b.getD 0 0, b.getD 1 0⟩
  else
    .ok ⟨b.take (b.length - LenResponseTrailer),
      b.getD (b.length - 2) 0, b.getD (b.length - 1) 0⟩

/-- determineCase of apdu.go. -/
def Capdu.determineCase (c : Capdu) : Nat :=
  if c.Data.length = 0 ∧ c.Ne = 0 then 1
  else if c.Data.length = 0 ∧ c.Ne > 0 then 2
  else if c.Data.length ≠ 0 ∧ c.Ne = 0 then 3
  else 4

/-- Capdu.Bytes of apdu.go.  Go byte conversions `byte(x)` are `x % 256`, and
`(x >> 8) & 0xFF` is `x / 256 % 256`. -/
def Capdu.Bytes (c : Capdu) : List Nat :=
  let header := [c.Cla, c.Ins, c.P1, c.P2]
  let dataLen := c.Data.length
  let ca := c.determineCase
  if ca = 1 then
    header
  else if ca = 2 then
    -- CASE 2: HEADER | LE
    if MaxLenResponseDataStandard < c.Ne then
      -- extended length format; first LE byte is the zero marker
      let ne := if MaxLenResponseDataExtended < c.Ne then
          MaxLenResponseDataExtended
        else c.Ne
      let le := if ne = MaxLenResponseDataExtended then [0, 0, 0]
        else [0, c.Ne / 256 % 256, c.Ne % 256]
      header ++ le
    else if c.Ne = MaxLenResponseDataStandard then
      header ++ [0]
    else
      header ++ [c.Ne % 256]
  else if ca = 3 then
    -- CASE 3: HEADER | LC | DATA
    if MaxLenCommandDataStandard < c.Data.length then
      -- extended length format, data truncated to the maximum length
      let dl := if MaxLenCommandDataExtended < dataLen then
          MaxLenCommandDataExtended
        else dataLen
      header ++ [0, dl / 256 % 256, dl % 256] ++ c.Data.take dl
    else
      header ++ [dataLen % 256] ++ c.Data
  else
    -- CASE 4: HEADER | LC | DATA | LE
    if MaxLenResponseDataStandard < c.Ne ∨
        MaxLenCommandDataStandard < c.Data.length then
      -- extended length format, data truncated and ne clamped
      let dl := if MaxLenCommandDataExtended < dataLen then
          MaxLenCommandDataExtended
        else dataLen
      let ne := if MaxLenResponseDataExtended < c.Ne then
          MaxLenResponseDataExtended
        else c.Ne
      let le := if ne = MaxLenResponseDataExtended then [0, 0]
        else [c.Ne / 256 % 256, c.Ne % 256]
      header ++ [0, dl / 256 % 256, dl % 256] ++ c.Data.take dl ++ le
    else
      header ++ [dataLen % 256] ++ c.Data ++ [c.Ne % 256]

/-- Rapdu.Bytes of apdu.go: the output buffer capacity is the data length
capped at the extended maximum, and exactly that many data bytes are copied
before SW1 and SW2. -/
def Rapdu.Bytes (r : Rapdu) : List Nat :=
  let cap := if MaxLenResponseDataExtended < r.Data.length then
      MaxLenResponseDataExtended
    else r.Data.length
  r.Data.take cap ++ [r.SW1, r.SW2]

/-- Rapdu.IsSuccess of apdu.go. -/
def Rapdu.IsSuccess (r : Rapdu) : Bool :=
  r.SW1 == 0x61 || (r.SW1 == 0x90 && r.SW2 == 0x00)

/-- Rapdu.IsWarning of apdu.go. -/
def Rapdu.IsWarning (r : Rapdu) : Bool :=
  r.SW1 == 0x62 || r.SW1 == 0x63

/-- Rapdu.IsError of apdu.go. -/
def Rapdu.IsError (r : Rapdu) : Bool :=
  (r.SW1 == 0x64 || r.SW1 == 0x65) ||
    (decide (0x67 ≤ r.SW1) && decide (r.SW1 ≤ 0x6F))

lemma getD_append_self (l : List Nat) (x : Nat) (l' : List Nat) :
    (l ++ x :: l').getD l.length 0 = x := by
  rw [List.getD_append_right _ _ _ _ (Nat.le_refl _)]
  simp

lemma getD_append_self_add_one (l : List Nat) (x y : Nat) (l' : List Nat) :
    (l ++ x :: y :: l').getD (l.length + 1) 0 = y := by
  have h : l ++ x :: y :: l' = (l ++ [x]) ++ y :: l' := by simp
  have hlen : l.length + 1 = (l ++ [x]).length := by simp
  rw [h, hlen, getD_append_self]

example : ParseCapdu [0x00, 0xA4, 0x04, 0x00] =
    .ok ⟨0x00, 0xA4, 0x04, 0x00, [], 0⟩ := by decide

example : ParseCapdu [0x00, 0xA4, 0x04, 0x00, 0x05, 0x01, 0x02, 0x03, 0x04, 0x05, 0x20] =
    .ok ⟨0x00, 0xA4, 0x04, 0x00, [0x01, 0x02, 0x03, 0x04, 0x05], 32⟩ := by decide

example : ParseCapdu [0x00, 0xA4, 0x04, 0x01, 0x00, 0x00, 0x03, 0x01, 0x02, 0x03] =
    .ok ⟨0x00, 0xA4, 0x04, 0x01, [0x01, 0x02, 0x03], 0⟩ := by decide

example : ParseCapdu [0x00, 0xA4, 0x04, 0x01, 0x05, 0x01, 0x02] =
    .err (.invalidLc 5) := by decide

example : ParseCapdu [0x00, 0xA4, 0x04, 0x00, 0x00, 0x01] = .outOfRange := by decide

example : (Capdu.mk 0 0xA4 4 0 [1, 2, 3] 5).Bytes = [0, 0xA4, 4, 0, 3, 1, 2, 3, 5] := by decide

example : ParseRapdu [0x90, 0x00] = .ok ⟨[], 0x90, 0x00⟩ := by decide

/-- Claim C2: ParseCapdu is claimed never to panic and never to perform an
out-of-bounds slice access.  The code refutes this: on the 6-byte input
[0x00, 0xA4, 0x04, 0x00, 0x00, 0x01] the byte at position 4 is zero and one
more byte follows, so parseCapduExtendedLength runs and evaluates the slice
c[5:7] on a 6-byte slice, an out-of-range slice expression that panics at
run time.  This theorem evaluates the embedded parser at that input. -/
theorem parseCapdu_length6_out_of_range :
    ParseCapdu [0x00, 0xA4, 0x04, 0x00, 0x00, 0x01] = .outOfRange := by decide

/-- Claim C8: ParseRapdu fails with InvalidLength exactly when the input
length is outside [2, 65538]; a 2-byte input yields no data and SW1/SW2 equal
to the two bytes; a longer accepted input yields all bytes but the last two
as data and the last two bytes as SW1/SW2. -/
theorem parseRapdu_spec (b : List Nat) :
    (ParseRapdu b = .err (.invalidLength b.length) ↔
      b.length < 2 ∨ 65538 < b.length) ∧
    (b.length = 2 → ParseRapdu b = .ok ⟨[], b.getD 0 0, b.getD 1 0⟩) ∧
    (2 < b.length → b.length ≤ 65538 →
      ParseRapdu b = .ok ⟨b.take (b.length - 2),
        b.getD (b.length - 2) 0, b.getD (b.length - 1) 0⟩) := by
  unfold ParseRapdu LenResponseTrailer
  refine ⟨?_, ?_, ?_⟩
  · split
    · simp
      omega
    · rename_i hout
      split
      · simp
        omega
      · simp
        omega
  · intro h
    rw [if_neg (by omega), if_pos h]
  · intro h1 h2
    rw [if_neg (by omega), if_neg (by omega)]

/-- Witness for parseRapdu_spec at the concrete input [0x90, 0x00]. -/
theorem parseRapdu_spec_witness :
    ParseRapdu [0x90, 0x00] =
      .ok ⟨[], ([0x90, 0x00] : List Nat).getD 0 0, ([0x90, 0x00] : List Nat).getD 1 0⟩ :=
  (parseRapdu_spec [0x90, 0x00]).2.1 (by decide)

/-- Claim C9: IsWarning holds exactly for SW1 in {0x62, 0x63}; IsError holds
exactly for SW1 in {0x64, 0x65} or in [0x67, 0x6F]; a Rapdu with SW1 = 0x6A
is an error and neither a success nor a warning. -/
theorem rapdu_status_ranges (r : Rapdu) :
    (r.IsWarning = true ↔ r.SW1 = 0x62 ∨ r.SW1 = 0x63) ∧
    (r.IsError = true ↔
      r.SW1 = 0x64 ∨ r.SW1 = 0x65 ∨ (0x67 ≤ r.SW1 ∧ r.SW1 ≤ 0x6F)) ∧
    (r.SW1 = 0x6A →
      r.IsError = true ∧ r.IsSuccess = false ∧ r.IsWarning = false) := by
  unfold Rapdu.IsWarning Rapdu.IsError Rapdu.IsSuccess
  refine ⟨by simp, by simp; omega, ?_⟩
  intro h
  rw [h]
  simp

/-- Witness for rapdu_status_ranges at SW1 = 0x6A. -/
theorem rapdu_status_ranges_witness :
    (Rapdu.mk [] 0x6A 0).IsError = true ∧
      (Rapdu.mk [] 0x6A 0).IsSuccess = false ∧
      (Rapdu.mk [] 0x6A 0).IsWarning = false :=
  (rapdu_status_ranges (Rapdu.mk [] 0x6A 0)).2.2 rfl

/-- Claim C10: the three status predicates are pairwise disjoint: no Rapdu is
classified by two of IsSuccess, IsWarning, IsError at once. -/
theorem rapdu_status_disjoint (r : Rapdu) :
    (r.IsSuccess && r.IsWarning) = false ∧
      (r.IsSuccess && r.IsError) = false ∧
      (r.IsWarning && r.IsError) = false := by
  unfold Rapdu.IsSuccess Rapdu.IsWarning Rapdu.IsError
  refine ⟨?_, ?_, ?_⟩ <;> simp <;> omega

/-- Claim C3: for every input accepted by the length check and longer than a
bare header, ParseCapdu branches to extended-length parsing exactly when the
byte at position 4 is zero and at least one more byte follows it, and to
standard-length parsing in every other case. -/
theorem parseCapdu_dispatch (c : List Nat) (h4 : 4 < c.length)
    (hmax : c.length ≤ 65544) :
    ParseCapdu c = if c.getD 4 0 = 0 ∧ 5 < c.length
      then parseCapduExtendedLength c
      else parseCapduStandardLength c := by
  unfold ParseCapdu LenHeader
  rw [if_neg (by omega), if_neg (by omega)]
  have hcond : (c.getD OffsetLcStandard 0 = 0 ∧ (c.drop OffsetLcExtended).length > 0)
      ↔ (c.getD 4 0 = 0 ∧ 5 < c.length) := by
    unfold OffsetLcStandard OffsetLcExtended
    simp only [List.length_drop]
    omega
  by_cases hc : c.getD 4 0 = 0 ∧ 5 < c.length
  · rw [if_pos (hcond.mpr hc), if_pos hc]
  · rw [if_neg (fun hx => hc (hcond.mp hx)), if_neg hc]

/-- Witness for parseCapdu_dispatch at a concrete 7-byte input. -/
theorem parseCapdu_dispatch_witness :
    ParseCapdu [0, 164, 4, 1, 2, 9, 9] =
      if ([0, 164, 4, 1, 2, 9, 9] : List Nat).getD 4 0 = 0 ∧
          5 < ([0, 164, 4, 1, 2, 9, 9] : List Nat).length
      then parseCapduExtendedLength [0, 164, 4, 1, 2, 9, 9]
      else parseCapduStandardLength [0, 164, 4, 1, 2, 9, 9] :=
  parseCapdu_dispatch [0, 164, 4, 1, 2, 9, 9] (by decide) (by decide)

lemma parseCapdu_eq_standardLength (c : List Nat) (h4 : 4 < c.length)
    (hmax : c.length ≤ 65544) (hns : ¬(c.getD 4 0 = 0 ∧ 5 < c.length)) :
    ParseCapdu c = parseCapduStandardLength c := by
  unfold ParseCapdu LenHeader
  rw [if_neg (by omega), if_neg (by omega), if_neg]
  unfold OffsetLcStandard OffsetLcExtended
  simp only [List.length_drop]
  omega

lemma parseCapdu_eq_extendedLength (c : List Nat) (h5 : 5 < c.length)
    (hmax : c.length ≤ 65544) (hz : c.getD 4 0 = 0) :
    ParseCapdu c = parseCapduExtendedLength c := by
  unfold ParseCapdu LenHeader
  have hcond : c.getD OffsetLcStandard 0 = 0 ∧
      (c.drop OffsetLcExtended).length > 0 := by
    constructor
    · simpa [OffsetLcStandard] using hz
    · simp only [OffsetLcExtended, List.length_drop]
      omega
  rw [if_neg (by omega), if_neg (by omega), if_pos hcond]

/-- Claim C4: on a standard-length input whose body holds at least 2 bytes,
ParseCapdu fails with InvalidLc exactly when the first body byte equals
neither bodyLen-1 nor bodyLen-2; on success the Lc bytes following the Lc
byte become Data; and the concrete input [0x00,0xA4,0x04,0x01,0x05,0x01,0x02]
fails with InvalidLc. -/
theorem parseCapdu_standard_invalidLc (c : List Nat) (hlen : 6 ≤ c.length)
    (hmax : c.length ≤ 65544) (hnz : c.getD 4 0 ≠ 0) :
    (ParseCapdu c = .err (.invalidLc (c.getD 4 0)) ↔
      ¬(c.getD 4 0 = c.length - 4 - 1 ∨ c.getD 4 0 = c.length - 4 - 2)) ∧
    (∀ r, ParseCapdu c = .ok r → r.Data = (c.drop 5).take (c.getD 4 0)) ∧
    ParseCapdu [0x00, 0xA4, 0x04, 0x01, 0x05, 0x01, 0x02] =
      .err (.invalidLc 5) := by
  have hstd : ParseCapdu c = parseCapduStandardLength c :=
    parseCapdu_eq_standardLength c (by omega) hmax (by
      intro hx
      exact hnz hx.1)
  rw [hstd]
  unfold parseCapduStandardLength LenHeader LenLCStandard OffsetLcStandard
    OffsetCdataStandard MaxLenResponseDataStandard
  rw [if_neg (by omega), if_neg (by omega)]
  refine ⟨?_, ?_, by decide⟩
  · by_cases hg : c.getD 4 0 + 1 ≠ c.length - 4 ∧ c.getD 4 0 + 1 + 1 ≠ c.length - 4
    · rw [if_pos hg]
      simp only [true_iff, iff_true]
      omega
    · rw [if_neg hg]
      dsimp only
      split
      · simp only [PResult.ok.injEq, reduceCtorEq, false_iff]
        omega
      · simp only [PResult.ok.injEq, reduceCtorEq, false_iff]
        omega
  · by_cases hg : c.getD 4 0 + 1 ≠ c.length - 4 ∧ c.getD 4 0 + 1 + 1 ≠ c.length - 4
    · rw [if_pos hg]
      intro r hr
      simp at hr
    · rw [if_neg hg]
      intro r hr
      revert hr
      dsimp only
      split
      · intro hr
        rw [PResult.ok.injEq] at hr
        rw [← hr]
      · intro hr
        rw [PResult.ok.injEq] at hr
        rw [← hr]

/-- Witness for parseCapdu_standard_invalidLc at the concrete input of
Scenario D. -/
theorem parseCapdu_standard_invalidLc_witness :
    ParseCapdu [0x00, 0xA4, 0x04, 0x01, 0x05, 0x01, 0x02] =
        .err (.invalidLc (([0x00, 0xA4, 0x04, 0x01, 0x05, 0x01, 0x02] : List Nat).getD 4 0)) :=
  (parseCapdu_standard_invalidLc [0x00, 0xA4, 0x04, 0x01, 0x05, 0x01, 0x02]
      (by decide) (by decide) (by decide)).1.mpr (by decide)

/-- Claim C5: zero means maximum in Le encoding.  With no data and Ne = 256,
Bytes emits the single standard Le byte 0x00, and ParseCapdu on any 5-byte
input with Le byte 0x00 yields Ne = 256.  With no data and Ne = 65536, Bytes
emits an extended Le of two zero bytes after the leading zero marker, and
ParseCapdu on the corresponding 7-byte input yields Ne = 65536. -/
theorem capdu_zero_means_max :
    (∀ c : Capdu, c.Data = [] → c.Ne = 256 →
      c.Bytes = [c.Cla, c.Ins, c.P1, c.P2, 0]) ∧
    (∀ c : List Nat, c.length = 5 → c.getD 4 0 = 0 →
      ParseCapdu c = .ok ⟨c.getD 0 0, c.getD 1 0, c.getD 2 0, c.getD 3 0,
        [], 256⟩) ∧
    (∀ c : Capdu, c.Data = [] → c.Ne = 65536 →
      c.Bytes = [c.Cla, c.Ins, c.P1, c.P2, 0, 0, 0]) ∧
    (∀ c : List Nat, c.length = 7 → c.getD 4 0 = 0 → c.getD 5 0 = 0 →
      c.getD 6 0 = 0 →
      ParseCapdu c = .ok ⟨c.getD 0 0, c.getD 1 0, c.getD 2 0, c.getD 3 0,
        [], 65536⟩) := by
  refine ⟨?_, ?_, ?_, ?_⟩
  · rintro ⟨cla, ins, p1, p2, d, ne⟩ hd hne
    simp only at hd hne
    subst hd hne
    unfold Capdu.Bytes Capdu.determineCase MaxLenResponseDataStandard
      MaxLenResponseDataExtended
    norm_num
  · intro c hlen hz
    unfold ParseCapdu LenHeader
    rw [if_neg (by omega), if_neg (by omega), if_neg (by
      unfold OffsetLcExtended
      simp only [List.length_drop]
      omega)]
    unfold parseCapduStandardLength LenHeader LenLCStandard OffsetLcStandard
      OffsetCla OffsetIns OffsetP1 OffsetP2 MaxLenResponseDataStandard
    rw [if_pos (by omega), if_pos hz]
  · rintro ⟨cla, ins, p1, p2, d, ne⟩ hd hne
    simp only at hd hne
    subst hd hne
    unfold Capdu.Bytes Capdu.determineCase MaxLenResponseDataStandard
      MaxLenResponseDataExtended
    norm_num
  · intro c hlen hz h5 h6
    unfold ParseCapdu LenHeader
    rw [if_neg (by omega), if_neg (by omega), if_pos (by
      refine ⟨by simpa [OffsetLcStandard] using hz, by
        unfold OffsetLcExtended
        simp only [List.length_drop]
        omega⟩)]
    unfold parseCapduExtendedLength LenHeader LenLCExtended OffsetLcExtended
      OffsetCla OffsetIns OffsetP1 OffsetP2 MaxLenResponseDataExtended
    rw [if_pos (by omega)]
    simp only [h5, h6]
    norm_num

/-- Witness for capdu_zero_means_max at concrete values of each of the four
conjuncts. -/
theorem capdu_zero_means_max_witness :
    (Capdu.mk 0 0xA4 4 0 [] 256).Bytes = [0, 0xA4, 4, 0, 0] ∧
      ParseCapdu [0, 0xA4, 4, 0, 0] =
        .ok ⟨([0, 0xA4, 4, 0, 0] : List Nat).getD 0 0,
          ([0, 0xA4, 4, 0, 0] : List Nat).getD 1 0,
          ([0, 0xA4, 4, 0, 0] : List Nat).getD 2 0,
          ([0, 0xA4, 4, 0, 0] : List Nat).getD 3 0, [], 256⟩ ∧
      (Capdu.mk 0 0xA4 4 0 [] 65536).Bytes = [0, 0xA4, 4, 0, 0, 0, 0] ∧
      ParseCapdu [0, 0xA4, 4, 0, 0, 0, 0] =
        .ok ⟨([0, 0xA4, 4, 0, 0, 0, 0] : List Nat).getD 0 0,
          ([0, 0xA4, 4, 0, 0, 0, 0] : List Nat).getD 1 0,
          ([0, 0xA4, 4, 0, 0, 0, 0] : List Nat).getD 2 0,
          ([0, 0xA4, 4, 0, 0, 0, 0] : List Nat).getD 3 0, [], 65536⟩ :=
  ⟨capdu_zero_means_max.1 (Capdu.mk 0 0xA4 4 0 [] 256) rfl rfl,
    capdu_zero_means_max.2.1 [0, 0xA4, 4, 0, 0] (by decide) (by decide),
    capdu_zero_means_max.2.2.1 (Capdu.mk 0 0xA4 4 0 [] 65536) rfl rfl,
    capdu_zero_means_max.2.2.2 [0, 0xA4, 4, 0, 0, 0, 0] (by decide)
      (by decide) (by decide) (by decide)⟩

/-- Claim C7: the standard/extended crossover for serialization sits between
data lengths 255 and 256.  With Ne = 0, a 255-byte data field gets a 1-byte
standard Lc (total length 260) and a 256-byte data field gets a 3-byte
extended Lc with leading zero (total length 263). -/
theorem capdu_crossover :
    (∀ c : Capdu, c.Ne = 0 → c.Data.length = 255 →
      c.Bytes = [c.Cla, c.Ins, c.P1, c.P2, 255] ++ c.Data ∧
        c.Bytes.length = 260) ∧
    (∀ c : Capdu, c.Ne = 0 → c.Data.length = 256 →
      c.Bytes = [c.Cla, c.Ins, c.P1, c.P2, 0, 1, 0] ++ c.Data ∧
        c.Bytes.length = 263) := by
  constructor
  · rintro ⟨cla, ins, p1, p2, d, ne⟩ hne hd
    simp only at hne hd
    subst hne
    unfold Capdu.Bytes Capdu.determineCase MaxLenCommandDataStandard
      MaxLenCommandDataExtended
    simp only [hd]
    norm_num
    omega
  · rintro ⟨cla, ins, p1, p2, d, ne⟩ hne hd
    simp only at hne hd
    subst hne
    unfold Capdu.Bytes Capdu.determineCase MaxLenCommandDataStandard
      MaxLenCommandDataExtended
    simp only [hd]
    norm_num
    omega

/-- Witness for capdu_crossover at data fields of 255 and 256 repeated
bytes. -/
theorem capdu_crossover_witness :
    (Capdu.mk 0 0xA4 4 0 (List.replicate 255 0x41) 0).Bytes =
        [0, 0xA4, 4, 0, 255] ++ List.replicate 255 0x41 ∧
      (Capdu.mk 0 0xA4 4 0 (List.replicate 256 0x41) 0).Bytes =
        [0, 0xA4, 4, 0, 0, 1, 0] ++ List.replicate 256 0x41 :=
  ⟨(capdu_crossover.1 (Capdu.mk 0 0xA4 4 0 (List.replicate 255 0x41) 0) rfl
      (by rw [List.length_replicate])).1,
    (capdu_crossover.2 (Capdu.mk 0 0xA4 4 0 (List.replicate 256 0x41) 0) rfl
      (by rw [List.length_replicate])).1⟩

lemma determineCase_one {c : Capdu} (h1 : c.Data = []) (h2 : c.Ne = 0) :
    c.determineCase = 1 := by
  unfold Capdu.determineCase
  rw [if_pos ⟨by simp [h1], h2⟩]

lemma determineCase_two {c : Capdu} (h1 : c.Data = []) (h2 : c.Ne ≠ 0) :
    c.determineCase = 2 := by
  unfold Capdu.determineCase
  rw [if_neg (by
    rintro ⟨-, hx⟩
    exact h2 hx), if_pos ⟨by simp [h1], by omega⟩]

lemma determineCase_three {c : Capdu} (h1 : c.Data ≠ []) (h2 : c.Ne = 0) :
    c.determineCase = 3 := by
  unfold Capdu.determineCase
  have hlen : c.Data.length ≠ 0 := by simpa using h1
  rw [if_neg (by
    rintro ⟨hx, -⟩
    exact hlen hx), if_neg (by
    rintro ⟨hx, -⟩
    exact hlen hx), if_pos ⟨hlen, h2⟩]

lemma determineCase_four {c : Capdu} (h1 : c.Data ≠ []) (h2 : c.Ne ≠ 0) :
    c.determineCase = 4 := by
  unfold Capdu.determineCase
  have hlen : c.Data.length ≠ 0 := by simpa using h1
  rw [if_neg (by
    rintro ⟨hx, -⟩
    exact hlen hx), if_neg (by
    rintro ⟨hx, -⟩
    exact hlen hx), if_neg (by
    rintro ⟨-, hx⟩
    exact h2 hx)]

lemma bytes_case1_eval (cla ins p1 p2 : Nat) :
    (Capdu.mk cla ins p1 p2 [] 0).Bytes = [cla, ins, p1, p2] := rfl

lemma bytes_case2_eval (cla ins p1 p2 ne : Nat) (h : ne ≠ 0) :
    (Capdu.mk cla ins p1 p2 [] ne).Bytes =
      if 256 < ne then
        [cla, ins, p1, p2] ++
          (if (if 65536 < ne then 65536 else ne) = 65536 then [0, 0, 0]
            else [0, ne / 256 % 256, ne % 256])
      else if ne = 256 then [cla, ins, p1, p2] ++ [0]
      else [cla, ins, p1, p2] ++ [ne % 256] := by
  unfold Capdu.Bytes MaxLenResponseDataStandard MaxLenResponseDataExtended
  rw [determineCase_two rfl h]
  norm_num

lemma bytes_case3_eval (cla ins p1 p2 : Nat) (d : List Nat) (h : d ≠ []) :
    (Capdu.mk cla ins p1 p2 d 0).Bytes =
      if 255 < d.length then
        [cla, ins, p1, p2] ++
          [0, (if 65535 < d.length then 65535 else d.length) / 256 % 256,
            (if 65535 < d.length then 65535 else d.length) % 256] ++
          d.take (if 65535 < d.length then 65535 else d.length)
      else [cla, ins, p1, p2] ++ [d.length % 256] ++ d := by
  unfold Capdu.Bytes MaxLenCommandDataStandard MaxLenCommandDataExtended
  rw [determineCase_three h rfl]
  norm_num

lemma bytes_case4_eval (cla ins p1 p2 ne : Nat) (d : List Nat) (hd : d ≠ [])
    (hne : ne ≠ 0) :
    (Capdu.mk cla ins p1 p2 d ne).Bytes =
      if 256 < ne ∨ 255 < d.length then
        [cla, ins, p1, p2] ++
          [0, (if 65535 < d.length then 65535 else d.length) / 256 % 256,
            (if 65535 < d.length then 65535 else d.length) % 256] ++
          d.take (if 65535 < d.length then 65535 else d.length) ++
          (if (if 65536 < ne then 65536 else ne) = 65536 then [0, 0]
            else [ne / 256 % 256, ne % 256])
      else [cla, ins, p1, p2] ++ [d.length % 256] ++ d ++ [ne % 256] := by
  unfold Capdu.Bytes MaxLenResponseDataStandard MaxLenResponseDataExtended
    MaxLenCommandDataStandard MaxLenCommandDataExtended
  rw [determineCase_four hd hne]
  norm_num

/-- Claim C6: serialization is total and permissive.  Capdu.Bytes of any
value equals Capdu.Bytes of the value with Data truncated to its first 65535
bytes and Ne clamped to 65536, and Rapdu.Bytes always emits the data
truncated to 65536 bytes followed by SW1 and SW2; neither can fail. -/
theorem bytes_permissive :
    (∀ c : Capdu, c.Bytes =
      (Capdu.mk c.Cla c.Ins c.P1 c.P2 (c.Data.take 65535)
        (min c.Ne 65536)).Bytes) ∧
    (∀ r : Rapdu, r.Bytes = r.Data.take 65536 ++ [r.SW1, r.SW2]) := by
  constructor
  · rintro ⟨cla, ins, p1, p2, d, ne⟩
    by_cases hd0 : d = []
    · subst hd0
      by_cases hne0 : ne = 0
      · subst hne0
        rfl
      · dsimp only
        rw [List.take_nil, bytes_case2_eval cla ins p1 p2 ne hne0,
          bytes_case2_eval cla ins p1 p2 (min ne 65536) (by omega)]
        by_cases h1 : ne ≤ 65536
        · rw [min_eq_left h1]
        · have hmin : min ne 65536 = 65536 := by omega
          rw [hmin]
          norm_num [show 256 < ne by omega, show 65536 < ne by omega]
    · have hd0m : d.take 65535 ≠ [] := by
        simp [List.take_eq_nil_iff, hd0]
      by_cases hne0 : ne = 0
      · subst hne0
        dsimp only
        rw [bytes_case3_eval cla ins p1 p2 d hd0,
          show min 0 65536 = 0 from rfl,
          bytes_case3_eval cla ins p1 p2 (d.take 65535) hd0m]
        by_cases h1 : d.length ≤ 65535
        · rw [List.take_of_length_le h1]
        · norm_num [List.length_take, List.take_take,
            show 255 < d.length by omega, show 65535 < d.length by omega]
          omega
      · dsimp only
        rw [bytes_case4_eval cla ins p1 p2 ne d hd0 hne0,
          bytes_case4_eval cla ins p1 p2 (min ne 65536) (d.take 65535) hd0m
            (by omega)]
        by_cases h1 : ne ≤ 65536 <;> by_cases h2 : d.length ≤ 65535
        · rw [min_eq_left h1, List.take_of_length_le h2]
        · rw [min_eq_left h1]
          norm_num [List.length_take, List.take_take,
            show 255 < d.length by omega, show 65535 < d.length by omega]
          omega
        · have hmin : min ne 65536 = 65536 := by omega
          rw [hmin, List.take_of_length_le h2]
          norm_num [show 256 < ne by omega, show 65536 < ne by omega]
        · have hmin : min ne 65536 = 65536 := by omega
          rw [hmin]
          norm_num [List.length_take, List.take_take,
            show 255 < d.length by omega, show 65535 < d.length by omega,
            show 256 < ne by omega, show 65536 < ne by omega]
          omega
  · rintro ⟨d, sw1, sw2⟩
    unfold Rapdu.Bytes MaxLenResponseDataExtended
    dsimp only
    by_cases h : 65536 < d.length
    · rw [if_pos h]
    · rw [if_neg h, List.take_length, List.take_of_length_le (by omega)]

lemma be16_split (n : Nat) (h : n < 65536) :
    n / 256 % 256 * 256 + n % 256 = n := by
  omega

lemma parseStd_case2_eval (a b p q x : Nat) :
    parseCapduStandardLength [a, b, p, q, x] =
      .ok ⟨a, b, p, q, [], if x = 0 then 256 else x⟩ := by
  unfold parseCapduStandardLength LenHeader LenLCStandard OffsetLcStandard
    OffsetCla OffsetIns OffsetP1 OffsetP2 MaxLenResponseDataStandard
  rw [if_pos (by simp)]
  by_cases hx : x = 0 <;> simp [hx]

lemma parseStd_case3_eval (a b p q : Nat) (d : List Nat) (h1 : d ≠ []) :
    parseCapduStandardLength (a :: b :: p :: q :: d.length :: d) =
      .ok ⟨a, b, p, q, d, 0⟩ := by
  have hne : d.length ≠ 0 := by simpa using h1
  unfold parseCapduStandardLength LenHeader LenLCStandard OffsetLcStandard
    OffsetCdataStandard OffsetCla OffsetIns OffsetP1 OffsetP2
  rw [if_neg (by simp only [List.length_cons]; omega),
    if_neg (by simp only [List.length_cons]; omega)]
  dsimp only
  rw [if_neg (by simp only [List.getD_cons_succ, List.getD_cons_zero,
    List.length_cons]; omega)]
  rw [if_pos (by
    simp only [List.getD_cons_succ, List.getD_cons_zero, List.drop_succ_cons,
      List.drop_zero, List.take_length, List.length_cons]
    omega)]
  simp

lemma parseStd_case4_eval (a b p q le : Nat) (d : List Nat) :
    parseCapduStandardLength (a :: b :: p :: q :: d.length :: (d ++ [le])) =
      .ok ⟨a, b, p, q, d, if le = 0 then 256 else le⟩ := by
  have hlast : (a :: b :: p :: q :: d.length :: (d ++ [le])).getD
      ((a :: b :: p :: q :: d.length :: (d ++ [le])).length - 1) 0 = le := by
    have h1 : a :: b :: p :: q :: d.length :: (d ++ [le]) =
        (a :: b :: p :: q :: d.length :: d) ++ [le] := by simp
    rw [h1, show ((a :: b :: p :: q :: d.length :: d) ++ [le]).length - 1 =
      (a :: b :: p :: q :: d.length :: d).length by simp]
    exact getD_append_self _ le []
  unfold parseCapduStandardLength LenHeader LenLCStandard OffsetLcStandard
    OffsetCdataStandard OffsetCla OffsetIns OffsetP1 OffsetP2
    MaxLenResponseDataStandard
  rw [if_neg (by simp only [List.length_cons, List.length_append,
      List.length_nil]; omega),
    if_neg (by simp only [List.length_cons, List.length_append,
      List.length_nil]; omega)]
  dsimp only
  rw [if_neg (by simp only [List.getD_cons_succ, List.getD_cons_zero,
    List.length_cons, List.length_append, List.length_nil]; omega)]
  rw [if_neg (by simp only [List.getD_cons_succ, List.getD_cons_zero,
    List.drop_succ_cons, List.drop_zero, List.take_left, List.length_cons,
    List.length_append, List.length_nil]; omega)]
  rw [hlast]
  simp [List.take_left]

lemma parseExt_case2_eval (a b p q z hi lo : Nat) :
    parseCapduExtendedLength [a, b, p, q, z, hi, lo] =
      .ok ⟨a, b, p, q, [],
        if hi * 256 + lo = 0 then 65536 else hi * 256 + lo⟩ := by
  unfold parseCapduExtendedLength LenHeader LenLCExtended OffsetLcExtended
    OffsetCla OffsetIns OffsetP1 OffsetP2 MaxLenResponseDataExtended
  rw [if_pos (by simp)]
  by_cases hx : hi * 256 + lo = 0 <;> simp [hx]

lemma parseExt_case3_eval (a b p q z hi lo : Nat) (d : List Nat)
    (h1 : d ≠ []) (hlc : hi * 256 + lo = d.length) :
    parseCapduExtendedLength (a :: b :: p :: q :: z :: hi :: lo :: d) =
      .ok ⟨a, b, p, q, d, 0⟩ := by
  have hne : d.length ≠ 0 := by simpa using h1
  unfold parseCapduExtendedLength LenHeader LenLCExtended OffsetLcExtended
    OffsetCdataExtended OffsetCla OffsetIns OffsetP1 OffsetP2
  rw [if_neg (by simp only [List.length_cons]; omega),
    if_neg (by simp only [List.length_cons]; omega)]
  dsimp only
  rw [if_neg (by simp only [List.getD_cons_succ, List.getD_cons_zero,
    List.length_cons]; omega)]
  rw [if_pos (by simp only [List.getD_cons_succ, List.getD_cons_zero,
    List.drop_succ_cons, List.drop_zero, List.length_cons, List.length_take,
    hlc, List.take_length]; omega)]
  simp [hlc]

lemma parseExt_case4_eval (a b p q z hi lo l1 l2 : Nat) (d : List Nat)
    (hlc : hi * 256 + lo = d.length) :
    parseCapduExtendedLength
        (a :: b :: p :: q :: z :: hi :: lo :: (d ++ [l1, l2])) =
      .ok ⟨a, b, p, q, d,
        if l1 * 256 + l2 = 0 then 65536 else l1 * 256 + l2⟩ := by
  have hsplit : a :: b :: p :: q :: z :: hi :: lo :: (d ++ [l1, l2]) =
      (a :: b :: p :: q :: z :: hi :: lo :: d) ++ l1 :: l2 :: [] := by simp
  have hpen : (a :: b :: p :: q :: z :: hi :: lo :: (d ++ [l1, l2])).getD
      ((a :: b :: p :: q :: z :: hi :: lo :: (d ++ [l1, l2])).length - 2)
      0 = l1 := by
    rw [hsplit, show ((a :: b :: p :: q :: z :: hi :: lo :: d) ++
      l1 :: l2 :: []).length - 2 =
      (a :: b :: p :: q :: z :: hi :: lo :: d).length by simp]
    exact getD_append_self _ l1 [l2]
  have hlast : (a :: b :: p :: q :: z :: hi :: lo :: (d ++ [l1, l2])).getD
      ((a :: b :: p :: q :: z :: hi :: lo :: (d ++ [l1, l2])).length - 1)
      0 = l2 := by
    rw [hsplit, show ((a :: b :: p :: q :: z :: hi :: lo :: d) ++
      l1 :: l2 :: []).length - 1 =
      (a :: b :: p :: q :: z :: hi :: lo :: d).length + 1 by simp]
    exact getD_append_self_add_one _ l1 l2 []
  unfold parseCapduExtendedLength LenHeader LenLCExtended OffsetLcExtended
    OffsetCdataExtended OffsetCla OffsetIns OffsetP1 OffsetP2
    MaxLenResponseDataExtended
  rw [if_neg (by simp only [List.length_cons, List.length_append,
      List.length_nil]; omega),
    if_neg (by simp only [List.length_cons, List.length_append,
      List.length_nil]; omega)]
  dsimp only
  rw [if_neg (by simp only [List.getD_cons_succ, List.getD_cons_zero,
    List.length_cons, List.length_append, List.length_nil]; omega)]
  rw [if_neg (by simp only [List.getD_cons_succ, List.getD_cons_zero,
    List.drop_succ_cons, List.drop_zero, List.length_cons, List.length_append,
    List.length_nil, List.length_take, hlc, List.take_left]; omega)]
  rw [hpen, hlast]
  simp only [List.getD_cons_succ, List.getD_cons_zero, List.drop_succ_cons,
    List.drop_zero]
  rw [hlc, List.take_left]

/-- Claim C1: round-trip.  For every Capdu satisfying the data-model
invariant (Ne at most 65536 and Data at most 65535 bytes), parsing the
encoding produced by Capdu.Bytes succeeds and returns the same Capdu. -/
theorem parseCapdu_bytes_roundtrip (c : Capdu) (hne : c.Ne ≤ 65536)
    (hd : c.Data.length ≤ 65535) :
    ParseCapdu c.Bytes = .ok c := by
  obtain ⟨cla, ins, p1, p2, d, ne⟩ := c
  simp only at hne hd
  by_cases hd0 : d = []
  · subst hd0
    by_cases hne0 : ne = 0
    · subst hne0
      rw [bytes_case1_eval]
      unfold ParseCapdu LenHeader OffsetCla OffsetIns OffsetP1 OffsetP2
      rw [if_neg (by simp), if_pos (by simp)]
      simp
    · rw [bytes_case2_eval cla ins p1 p2 ne hne0]
      by_cases h256 : 256 < ne
      · rw [if_pos h256, if_neg (show ¬65536 < ne by omega)]
        by_cases hmax : ne = 65536
        · rw [if_pos hmax]
          rw [show ([cla, ins, p1, p2] ++ [0, 0, 0] : List Nat) =
            [cla, ins, p1, p2, 0, 0, 0] by simp]
          rw [parseCapdu_eq_extendedLength _ (by simp) (by simp) (by simp)]
          rw [parseExt_case2_eval]
          simp [hmax]
        · rw [if_neg hmax]
          rw [show ([cla, ins, p1, p2] ++
              [0, ne / 256 % 256, ne % 256] : List Nat) =
            [cla, ins, p1, p2, 0, ne / 256 % 256, ne % 256] by simp]
          rw [parseCapdu_eq_extendedLength _ (by simp) (by simp) (by simp)]
          rw [parseExt_case2_eval]
          rw [be16_split ne (by omega), if_neg hne0]
      · rw [if_neg h256]
        by_cases h256e : ne = 256
        · rw [if_pos h256e]
          rw [show ([cla, ins, p1, p2] ++ [0] : List Nat) =
            [cla, ins, p1, p2, 0] by simp]
          rw [parseCapdu_eq_standardLength _ (by simp) (by simp) (by simp)]
          rw [parseStd_case2_eval]
          simp [h256e]
        · rw [if_neg h256e]
          rw [Nat.mod_eq_of_lt (show ne < 256 by omega)]
          rw [show ([cla, ins, p1, p2] ++ [ne] : List Nat) =
            [cla, ins, p1, p2, ne] by simp]
          rw [parseCapdu_eq_standardLength _ (by simp) (by simp) (by simp)]
          rw [parseStd_case2_eval]
          rw [if_neg hne0]
  · by_cases hne0 : ne = 0
    · subst hne0
      rw [bytes_case3_eval cla ins p1 p2 d hd0]
      by_cases h255 : 255 < d.length
      · rw [if_pos h255, if_neg (show ¬65535 < d.length by omega)]
        rw [List.take_length]
        rw [show ([cla, ins, p1, p2] ++
            [0, d.length / 256 % 256, d.length % 256] ++ d : List Nat) =
          cla :: ins :: p1 :: p2 :: 0 :: (d.length / 256 % 256) ::
            (d.length % 256) :: d by simp]
        rw [parseCapdu_eq_extendedLength _
          (by simp only [List.length_cons]; omega)
          (by simp only [List.length_cons]; omega) (by simp)]
        rw [parseExt_case3_eval cla ins p1 p2 0 _ _ d hd0
          (be16_split d.length (by omega))]
      · rw [if_neg h255]
        rw [Nat.mod_eq_of_lt (show d.length < 256 by omega)]
        rw [show ([cla, ins, p1, p2] ++ [d.length] ++ d : List Nat) =
          cla :: ins :: p1 :: p2 :: d.length :: d by simp]
        rw [parseCapdu_eq_standardLength _
          (by simp only [List.length_cons]; omega)
          (by simp only [List.length_cons]; omega) (by simp [hd0])]
        rw [parseStd_case3_eval cla ins p1 p2 d hd0]
    · rw [bytes_case4_eval cla ins p1 p2 ne d hd0 hne0]
      by_cases hext : 256 < ne ∨ 255 < d.length
      · rw [if_pos hext, if_neg (show ¬65535 < d.length by omega),
          if_neg (show ¬65536 < ne by omega)]
        rw [List.take_length]
        by_cases hmax : ne = 65536
        · rw [if_pos hmax]
          rw [show ([cla, ins, p1, p2] ++
              [0, d.length / 256 % 256, d.length % 256] ++ d ++
              [0, 0] : List Nat) =
            cla :: ins :: p1 :: p2 :: 0 :: (d.length / 256 % 256) ::
              (d.length % 256) :: (d ++ [0, 0]) by simp]
          rw [parseCapdu_eq_extendedLength _
            (by simp only [List.length_cons, List.length_append,
              List.length_nil]; omega)
            (by simp only [List.length_cons, List.length_append,
              List.length_nil]; omega) (by simp)]
          rw [parseExt_case4_eval cla ins p1 p2 0 _ _ 0 0 d
            (be16_split d.length (by omega))]
          simp [hmax]
        · rw [if_neg hmax]
          rw [show ([cla, ins, p1, p2] ++
              [0, d.length / 256 % 256, d.length % 256] ++ d ++
              [ne / 256 % 256, ne % 256] : List Nat) =
            cla :: ins :: p1 :: p2 :: 0 :: (d.length / 256 % 256) ::
              (d.length % 256) ::
              (d ++ [ne / 256 % 256, ne % 256]) by simp]
          rw [parseCapdu_eq_extendedLength _
            (by simp only [List.length_cons, List.length_append,
              List.length_nil]; omega)
            (by simp only [List.length_cons, List.length_append,
              List.length_nil]; omega) (by simp)]
          rw [parseExt_case4_eval cla ins p1 p2 0 _ _ _ _ d
            (be16_split d.length (by omega))]
          rw [be16_split ne (by omega), if_neg hne0]
      · rw [if_neg hext]
        push_neg at hext
        rw [Nat.mod_eq_of_lt (show d.length < 256 by omega)]
        by_cases h256e : ne = 256
        · rw [h256e, Nat.mod_self]
          rw [show ([cla, ins, p1, p2] ++ [d.length] ++ d ++
              [0] : List Nat) =
            cla :: ins :: p1 :: p2 :: d.length :: (d ++ [0]) by simp]
          rw [parseCapdu_eq_standardLength _
            (by simp only [List.length_cons, List.length_append,
              List.length_nil]; omega)
            (by simp only [List.length_cons, List.length_append,
              List.length_nil]; omega) (by simp [hd0])]
          rw [parseStd_case4_eval]
          simp
        · rw [Nat.mod_eq_of_lt (show ne < 256 by omega)]
          rw [show ([cla, ins, p1, p2] ++ [d.length] ++ d ++
              [ne] : List Nat) =
            cla :: ins :: p1 :: p2 :: d.length :: (d ++ [ne]) by simp]
          rw [parseCapdu_eq_standardLength _
            (by simp only [List.length_cons, List.length_append,
              List.length_nil]; omega)
            (by simp only [List.length_cons, List.length_append,
              List.length_nil]; omega) (by simp [hd0])]
          rw [parseStd_case4_eval]
          rw [if_neg hne0]

/-- Witness for parseCapdu_bytes_roundtrip at a small concrete Capdu. -/
theorem parseCapdu_bytes_roundtrip_witness :
    ParseCapdu (Capdu.mk 0 164 4 0 [1, 2, 3] 5).Bytes =
      .ok (Capdu.mk 0 164 4 0 [1, 2, 3] 5) :=
  parseCapdu_bytes_roundtrip (Capdu.mk 0 164 4 0 [1, 2, 3] 5) (by decide)
    (by decide)

end Apdu
